import Mathlib

/-!
Verification of the proxy-pool manager (`ProxyPool` class).

The JavaScript source is shallowly embedded: the mutable instance fields
(`availableProxies`, `currentIndex`, `isRefilling`, `proxyCache`) become an
explicit `PoolState`; configuration options become a `Cfg` record; the
external world (provider HTTP endpoint, probe HTTP endpoint, `JSON.parse`,
`Date.now()`) becomes an `Env` of oracles.  Asynchronous methods are pure
state transformers: the awaited sub-batches of `testProxiesConcurrently`
run sequentially in source order, which is exactly the awaited order of the
code, and the fire-and-forget `checkAndRefill()` issued at the end of
`removeProxy` is modelled as a separate transition (`Op.refill`).
-/

namespace ProxyPoolModel

/-- A JavaScript value as it appears in an HTTP response body: a string,
some non-string object, or absent / null / undefined. -/
inductive JsData where
  | str (s : String)
  | obj
  | undef
deriving Repr, DecidableEq

/-- JavaScript truthiness of a response body (`""` is falsy, objects are truthy). -/
def JsData.truthy : JsData → Bool
  | .str s => s ≠ ""
  | .obj => true
  | .undef => false

/-- JavaScript truthiness of an optional string field. -/
def optTruthy : Option String → Bool
  | none => false
  | some s => s ≠ ""

/-- Whitespace recognised by `String.prototype.trim` (the forms occurring here). -/
def isJsSpace (c : Char) : Bool := c = ' ' || c = '\n' || c = '\t' || c = '\r'

/-- Trim both ends of a character list. -/
def trimList (l : List Char) : List Char :=
  ((l.dropWhile isJsSpace).reverse.dropWhile isJsSpace).reverse

/-- Models `String.prototype.trim`. -/
def jsTrim (s : String) : String := String.mk (trimList s.data)

/-- Split accumulator: models `String.prototype.split(sep)` (empty pieces kept). -/
def splitAux (sep : Char) : List Char → List Char → List (List Char)
  | [], acc => [acc.reverse]
  | c :: cs, acc =>
    if c = sep then acc.reverse :: splitAux sep cs [] else splitAux sep cs (c :: acc)

/-- Models `String.prototype.split` with a one-character separator. -/
def jsSplit (sep : Char) (s : String) : List String :=
  (splitAux sep s.data []).map String.mk

/-- Does `pat` occur at the head of `text`? -/
def prefixMatch [DecidableEq α] : List α → List α → Bool
  | [], _ => true
  | _ :: _, [] => false
  | a :: as, b :: bs => a = b && prefixMatch as bs

/-- Does `pat` occur anywhere inside `text`? -/
def segMatch [DecidableEq α] (pat : List α) : List α → Bool
  | [] => prefixMatch pat []
  | b :: bs => prefixMatch pat (b :: bs) || segMatch pat bs

/-- Models `String.prototype.includes`. -/
def strIncludes (text pat : String) : Bool := segMatch pat.data text.data

/-- One validation-cache record: `{ valid, timestamp }` as stored by the code. -/
structure CacheEntry where
  valid : Bool
  timestamp : Int
deriving Repr, DecidableEq

/-- The validation cache `this.proxyCache`, a JS `Map` in insertion order. -/
abbrev Cache := List (String × CacheEntry)

/-- Models `Map.prototype.has`. -/
def cacheHas (c : Cache) (k : String) : Bool := c.any (fun p => p.fst = k)

/-- Models `Map.prototype.get`. -/
def cacheGet (c : Cache) (k : String) : Option CacheEntry :=
  (c.find? (fun p => p.fst = k)).map Prod.snd

/-- Models `Map.prototype.set`: update in place when the key exists, else append. -/
def cacheSet : Cache → String → CacheEntry → Cache
  | [], k, e => [(k, e)]
  | (k0, e0) :: rest, k, e =>
    if k0 = k then (k, e) :: rest else (k0, e0) :: cacheSet rest k e

theorem cacheGet_cons (k0 : String) (e0 : CacheEntry) (rest : Cache) (k : String) :
    cacheGet ((k0, e0) :: rest) k = if k0 = k then some e0 else cacheGet rest k := by
  by_cases h : k0 = k
  · simp [cacheGet, List.find?_cons_of_pos, h]
  · simp [cacheGet, List.find?_cons_of_neg, h]

/-- One pool entry, as built by `addValidProxies` (`port` is the raw string after
the split, `undefined` when the candidate had no colon). -/
structure ProxyObj where
  ip : String
  port : Option String
  protocol : String
  full : String
  addedAt : Int
  username : Option String := none
  password : Option String := none
deriving Repr, DecidableEq

/-- The configuration options of the constructor that the embedded methods read. -/
structure Cfg where
  targetCount : Nat := 20
  batchSize : Nat := 20
  concurrentRequests : Nat := 10
  maxRefillAttempts : Nat := 20
  useCache : Bool := true
  cacheExpiry : Int := 3600000
  proxyProtocol : String := "http"

/-- An HTTP response as axios hands it back (`validateStatus` accepts any status,
so a delivered response is never an exception). -/
structure HttpResponse where
  status : Nat
  data : JsData
deriving Repr, DecidableEq

/-- A provider line after `JSON.parse`, restricted to the fields the code reads
(values already stringified; a missing field is `none`). -/
structure ProviderRecord where
  ip : Option String := none
  port : Option String := none
  username : Option String := none
  password : Option String := none
deriving Repr, DecidableEq

/-- The external world: the clock, the platform JSON parser, the provider
endpoint (indexed by attempt number and requested count) and the probe request
through a candidate proxy.  `none` models a network error / timeout (the
`catch` paths). -/
structure Env where
  now : Int
  jsonParse : String → Option ProviderRecord
  provider : Nat → Nat → Option HttpResponse
  probe : String → Option HttpResponse

/-- One element of the result array of `testProxiesConcurrently`. -/
structure TestResult where
  proxy : String
  result : Bool
deriving Repr, DecidableEq

/-- The mutable instance state of the pool. -/
structure PoolState where
  availableProxies : List ProxyObj
  currentIndex : Nat
  isRefilling : Bool
  proxyCache : Cache
deriving Repr, DecidableEq

/-- The state right after the constructor ran. -/
def initialState : PoolState := ⟨[], 0, false, []⟩

/-- Models `testProxy`: request the target URL through the candidate; valid
exactly when the delivered status is 200 and the body is a string containing
the probe marker; every error path of the `catch` yields `false`. -/
def testProxy (probe : String → Option HttpResponse) (proxyUrl : String) : Bool :=
  match probe proxyUrl with
  | none => false
  | some r =>
    let isTargetContent :=
      match r.data with
      | .str s => strIncludes s "notion" || strIncludes s "Notion"
      | _ => false
    r.status == 200 && isTargetContent

/-- The candidate string pushed for one parsed provider record, `none` when
`proxyData.ip && proxyData.port` is falsy. -/
def candidateOfRecord (r : ProviderRecord) : Option String :=
  if optTruthy r.ip && optTruthy r.port then
    if optTruthy r.username && optTruthy r.password then
      some (r.ip.getD "" ++ ":" ++ r.port.getD "" ++ ":" ++
            r.username.getD "" ++ ":" ++ r.password.getD "")
    else
      some (r.ip.getD "" ++ ":" ++ r.port.getD "")
  else none

/-- The per-line loop of `getProxiesFromProvider`: a line whose `JSON.parse`
throws is logged and skipped, a parsed record without truthy ip/port is
skipped, the rest are pushed in order. -/
def parseLines (jp : String → Option ProviderRecord) : List String → List String
  | [] => []
  | line :: rest =>
    match jp line with
    | none => parseLines jp rest
    | some r =>
      match candidateOfRecord r with
      | none => parseLines jp rest
      | some c => c :: parseLines jp rest

/-- Models `response.data.trim().split('\n').filter(line => line.trim() !== '')`. -/
def bodyLines (s : String) : List String :=
  (jsSplit '\n' (jsTrim s)).filter (fun l => jsTrim l ≠ "")

/-- Models `const requestCount = count || this.batchSize` followed by
`Math.min(requestCount, 10)`: the count put in the provider URL. -/
def effectiveRequestCount (batchSize : Nat) (count : Option Nat) : Nat :=
  let requestCount :=
    match count with
    | none => batchSize
    | some n => if n = 0 then batchSize else n
  min requestCount 10

/-- The response handling of `getProxiesFromProvider`: a network error, a falsy
body, or a non-string body (whose `.trim()` throws into the `catch`) all yield
`[]`; a non-empty string body is parsed line by line.  The response status is
never inspected. -/
def parseProviderResponse (jp : String → Option ProviderRecord)
    (resp : Option HttpResponse) : List String :=
  match resp with
  | none => []
  | some r =>
    match r.data with
    | .str s => if s = "" then [] else parseLines jp (bodyLines s)
    | .obj => []
    | .undef => []

/-- Models `getProxiesFromProvider(count)` end to end. -/
def getProxiesFromProvider (cfg : Cfg) (env : Env) (attempt : Nat)
    (count : Option Nat) : List String :=
  parseProviderResponse env.jsonParse
    (env.provider attempt (effectiveRequestCount cfg.batchSize count))

/-- Models `proxy.split(':')`. -/
def splitParts (proxy : String) : List String := jsSplit ':' proxy

/-- The duplicate check shared by `filterExistingProxies` and `addValidProxies`:
with four or more split parts compare ip, port, username and password, else
compare ip and port only. -/
def existsInPool (pool : List ProxyObj) (proxy : String) : Bool :=
  if (splitParts proxy).length ≥ 4 then
    pool.any (fun p =>
      decide (p.ip = (splitParts proxy).headD "" ∧ p.port = (splitParts proxy)[1]? ∧
              p.username = (splitParts proxy)[2]? ∧ p.password = (splitParts proxy)[3]?))
  else
    pool.any (fun p =>
      decide (p.ip = (splitParts proxy).headD "" ∧ p.port = (splitParts proxy)[1]?))

/-- Models `filterExistingProxies`. -/
def filterExistingProxies (pool : List ProxyObj) (proxies : List String) :
    List String :=
  proxies.filter (fun proxy => !existsInPool pool proxy)

/-- The pool entry `addValidProxies` constructs for an accepted candidate. -/
def mkProxyObj (cfg : Cfg) (now : Int) (proxy : String) : ProxyObj :=
  if (splitParts proxy).length ≥ 4 then
    { ip := (splitParts proxy).headD "", port := (splitParts proxy)[1]?
      protocol := cfg.proxyProtocol
      full := cfg.proxyProtocol ++ "://" ++ ((splitParts proxy)[2]?).getD "" ++ ":" ++
              ((splitParts proxy)[3]?).getD "" ++ "@" ++ (splitParts proxy).headD "" ++
              ":" ++ ((splitParts proxy)[1]?).getD ""
      addedAt := now, username := (splitParts proxy)[2]?, password := (splitParts proxy)[3]? }
  else
    { ip := (splitParts proxy).headD "", port := (splitParts proxy)[1]?
      protocol := cfg.proxyProtocol
      full := cfg.proxyProtocol ++ "://" ++ proxy
      addedAt := now }

/-- The state change of the accepting branch of the `addValidProxies` loop:
push the new entry and record it valid in the cache. -/
def insertState (cfg : Cfg) (now : Int) (proxy : String) (s : PoolState) : PoolState :=
  { s with availableProxies := s.availableProxies ++ [mkProxyObj cfg now proxy]
           proxyCache :=
             if cfg.useCache then cacheSet s.proxyCache proxy ⟨true, now⟩
             else s.proxyCache }

/-- The state change of the failing branch of the `addValidProxies` loop:
record the candidate invalid in the cache. -/
def recordInvalid (cfg : Cfg) (now : Int) (proxy : String) (s : PoolState) : PoolState :=
  { s with proxyCache :=
             if cfg.useCache then cacheSet s.proxyCache proxy ⟨false, now⟩
             else s.proxyCache }

/-- Models `addValidProxies(results)`: push each passing candidate that is not
already present (recording it valid in the cache), record each failing one
invalid, and break out of the loop as soon as the pool reaches the target. -/
def addValidProxies (cfg : Cfg) (now : Int) : List TestResult → PoolState → PoolState
  | [], s => s
  | tr :: rest, s =>
    if tr.result then
      if existsInPool s.availableProxies tr.proxy then
        addValidProxies cfg now rest s
      else
        if (s.availableProxies ++ [mkProxyObj cfg now tr.proxy]).length ≥ cfg.targetCount then
          insertState cfg now tr.proxy s
        else
          addValidProxies cfg now rest (insertState cfg now tr.proxy s)
    else
      addValidProxies cfg now rest (recordInvalid cfg now tr.proxy s)

@[simp] theorem insertState_pool (cfg : Cfg) (now : Int) (proxy : String) (s : PoolState) :
    (insertState cfg now proxy s).availableProxies =
      s.availableProxies ++ [mkProxyObj cfg now proxy] := rfl

@[simp] theorem recordInvalid_pool (cfg : Cfg) (now : Int) (proxy : String) (s : PoolState) :
    (recordInvalid cfg now proxy s).availableProxies = s.availableProxies := rfl

/-- Models `Math.min(this.concurrentRequests * 2, 20)`: the sub-batch bound
actually used by `testProxiesConcurrently`. -/
def batchLimit (cfg : Cfg) : Nat := min (cfg.concurrentRequests * 2) 20

/-- Chop a list into consecutive chunks of `c` elements (the slices
`proxies.slice(i, i + c)` of the batching loop); the fuel is the list length. -/
def chunksAux (c : Nat) : Nat → List String → List (List String)
  | 0, _ => []
  | _, [] => []
  | fuel + 1, l => l.take c :: chunksAux c fuel (l.drop c)

/-- The sub-batches `testProxiesConcurrently` dispatches, in dispatch order. -/
def subBatches (cfg : Cfg) (proxies : List String) : List (List String) :=
  chunksAux (batchLimit cfg) proxies.length proxies

/-- One candidate inside a sub-batch: a fresh cache entry short-circuits to the
cached verdict, anything else issues a live probe (`testProxy`); the second
component records whether a live probe was issued (the I/O trace). -/
def testOne (cfg : Cfg) (env : Env) (cache : Cache) (proxy : String) :
    TestResult × Bool :=
  match (if cfg.useCache then cacheGet cache proxy else none) with
  | some cached =>
    if env.now - cached.timestamp < cfg.cacheExpiry then
      (⟨proxy, cached.valid⟩, false)
    else
      (⟨proxy, testProxy env.probe proxy⟩, true)
  | none => (⟨proxy, testProxy env.probe proxy⟩, true)

/-- The sub-batch loop: await a whole batch, append its results, and stop as
soon as the accumulated successes reach `remainingNeeded`. -/
def runBatchesAux (cfg : Cfg) (env : Env) (cache : Cache) (remainingNeeded : Int) :
    List (List String) → List TestResult → List String → List TestResult × List String
  | [], accR, accP => (accR, accP)
  | batch :: rest, accR, accP =>
    let outs := batch.map (testOne cfg env cache)
    let accR1 := accR ++ outs.map Prod.fst
    let accP1 := accP ++ (outs.filter (fun o => o.snd)).map (fun o => o.fst.proxy)
    let successCount := (accR1.filter (fun r => r.result)).length
    if (successCount : Int) ≥ remainingNeeded then (accR1, accP1)
    else runBatchesAux cfg env cache remainingNeeded rest accR1 accP1

/-- Models `testProxiesConcurrently(proxies)`; also returns the list of
candidates for which a live probe went out. -/
def testProxiesConcurrently (cfg : Cfg) (env : Env) (s : PoolState)
    (proxies : List String) : List TestResult × List String :=
  let remainingNeeded : Int := (cfg.targetCount : Int) - s.availableProxies.length
  runBatchesAux cfg env s.proxyCache remainingNeeded (subBatches cfg proxies) [] []

/-- The cache scan of `tryUsingCachedProxies`: collect keys of fresh entries
marked valid, stopping once `neededProxies` keys are collected. -/
def collectCached (cfg : Cfg) (now : Int) (needed : Int) :
    Cache → List String → List String
  | [], acc => acc.reverse
  | (k, e) :: rest, acc =>
    if now - e.timestamp < cfg.cacheExpiry ∧ e.valid then
      if ((k :: acc).length : Int) ≥ needed then (k :: acc).reverse
      else collectCached cfg now needed rest (k :: acc)
    else collectCached cfg now needed rest acc

/-- Models `tryUsingCachedProxies(neededProxies)`; the second component is the
list of candidates that were actually probed live. -/
def tryUsingCachedProxies (cfg : Cfg) (env : Env) (needed : Int) (s : PoolState) :
    PoolState × List String :=
  if (collectCached cfg env.now needed s.proxyCache []).length > 0 then
    (addValidProxies cfg env.now
      (testProxiesConcurrently cfg env s (collectCached cfg env.now needed s.proxyCache [])).fst s,
     (testProxiesConcurrently cfg env s (collectCached cfg env.now needed s.proxyCache [])).snd)
  else (s, [])

/-- One attempt's provider fetch: request `max(batchSize, remainingNeeded*2)`
candidates. -/
def attemptFetch (cfg : Cfg) (env : Env) (attempt : Nat) (s : PoolState) : List String :=
  getProxiesFromProvider cfg env attempt
    (some (max cfg.batchSize ((cfg.targetCount - s.availableProxies.length) * 2)))

/-- One attempt's test-and-insert step over the filtered new candidates. -/
def attemptInsert (cfg : Cfg) (env : Env) (s : PoolState) (newProxies : List String) :
    PoolState :=
  addValidProxies cfg env.now (testProxiesConcurrently cfg env s newProxies).fst s

/-- The bounded fetch loop of `refillProxies`; the fuel is the remaining attempt
budget, the second return component the final value of `attempts`. -/
def refillLoop (cfg : Cfg) (env : Env) : Nat → Nat → PoolState → PoolState × Nat
  | 0, attempts, s => (s, attempts)
  | fuel + 1, attempts, s =>
    if s.availableProxies.length < cfg.targetCount then
      if (attemptFetch cfg env (attempts + 1) s).length = 0 then
        refillLoop cfg env fuel (attempts + 1) s
      else
        if (filterExistingProxies s.availableProxies
              (attemptFetch cfg env (attempts + 1) s)).length = 0 then
          refillLoop cfg env fuel (attempts + 1) s
        else
          if (attemptInsert cfg env s (filterExistingProxies s.availableProxies
                (attemptFetch cfg env (attempts + 1) s))).availableProxies.length ≥
              cfg.targetCount then
            (attemptInsert cfg env s (filterExistingProxies s.availableProxies
              (attemptFetch cfg env (attempts + 1) s)), attempts + 1)
          else
            refillLoop cfg env fuel (attempts + 1)
              (attemptInsert cfg env s (filterExistingProxies s.availableProxies
                (attemptFetch cfg env (attempts + 1) s)))
    else (s, attempts)

/-- The `try` block of `refillProxies`: optional cache-first pass over
`neededProxies = targetCount - poolSize`, then the fetch loop. -/
def refillCycleBody (cfg : Cfg) (env : Env) (s : PoolState) : PoolState × Nat :=
  if cfg.useCache ∧ s.proxyCache.length > 0 then
    refillLoop cfg env cfg.maxRefillAttempts 0
      (tryUsingCachedProxies cfg env
        ((cfg.targetCount : Int) - s.availableProxies.length) s).fst
  else
    refillLoop cfg env cfg.maxRefillAttempts 0 s

/-- Models `refillProxies()`: single-flight guard, cycle body, and the
`finally` that clears the flag. -/
def refillProxies (cfg : Cfg) (env : Env) (s : PoolState) : PoolState × Nat :=
  if s.isRefilling then (s, 0)
  else
    ({ (refillCycleBody cfg env { s with isRefilling := true }).fst with isRefilling := false },
     (refillCycleBody cfg env { s with isRefilling := true }).snd)

/-- The try/catch/finally skeleton of `refillProxies` over an arbitrary cycle
body: the body returns the state reached so far together with an optional
internal fault; the `catch` only logs it, and the `finally` always clears the
single-flight flag. -/
def refillProxiesGen (body : PoolState → PoolState × Option String)
    (s : PoolState) : PoolState :=
  if s.isRefilling then s
  else { (body { s with isRefilling := true }).fst with isRefilling := false }

/-- Models `getProxy()`: `null` on an empty pool, else the element at the
cursor (`undefined`, i.e. `none`, when the cursor is out of range) and the
cursor advanced modulo the length. -/
def getProxy (s : PoolState) : Option ProxyObj × PoolState :=
  if s.availableProxies.length = 0 then (none, s)
  else (s.availableProxies[s.currentIndex]?,
        { s with currentIndex := (s.currentIndex + 1) % s.availableProxies.length })

/-- The results of `n` consecutive `getProxy()` calls. -/
def acquireSeq : Nat → PoolState → List (Option ProxyObj)
  | 0, _ => []
  | n + 1, s => (getProxy s).fst :: acquireSeq n (getProxy s).snd

/-- Models the synchronous effect of `removeProxy(ip, port)`: mark the
credential-less key invalid in the cache when a matching entry is pooled,
filter out every entry matching ip and port, and re-clamp the cursor only when
the shrunk pool is still non-empty.  The fire-and-forget `checkAndRefill()` it
issues last is a separate transition. -/
def removeFound (ip portStr : String) (pool : List ProxyObj) : Bool :=
  pool.any (fun p => decide (p.ip = ip ∧ p.port = some portStr))

def removeFilter (ip portStr : String) (pool : List ProxyObj) : List ProxyObj :=
  pool.filter (fun p => !decide (p.ip = ip ∧ p.port = some portStr))

def removeProxy (cfg : Cfg) (now : Int) (ip : String) (portStr : String)
    (s : PoolState) : Bool × PoolState :=
  (s.availableProxies.length > (removeFilter ip portStr s.availableProxies).length,
   { s with
     availableProxies := removeFilter ip portStr s.availableProxies
     proxyCache :=
       if removeFound ip portStr s.availableProxies ∧ cfg.useCache then
         cacheSet s.proxyCache (ip ++ ":" ++ portStr) ⟨false, now⟩
       else s.proxyCache
     currentIndex :=
       if s.currentIndex ≥ (removeFilter ip portStr s.availableProxies).length ∧
          (removeFilter ip portStr s.availableProxies).length > 0 then 0
       else s.currentIndex })

/-- The operations that touch the pool state, for reachability arguments. -/
inductive Op where
  | refill (env : Env)
  | addValid (now : Int) (results : List TestResult)
  | acquire
  | remove (now : Int) (ip : String) (port : String)

/-- Apply one operation. -/
def applyOp (cfg : Cfg) (s : PoolState) : Op → PoolState
  | .refill env => (refillProxies cfg env s).fst
  | .addValid now results => addValidProxies cfg now results s
  | .acquire => (getProxy s).snd
  | .remove now ip port => (removeProxy cfg now ip port s).snd

/-- Run a sequence of operations from the freshly constructed pool. -/
def runOps (cfg : Cfg) (ops : List Op) : PoolState :=
  ops.foldl (applyOp cfg) initialState

/-- The identity of a pool entry: the (host, port, username, password) tuple. -/
def ident (p : ProxyObj) : String × Option String × Option String × Option String :=
  (p.ip, p.port, p.username, p.password)

/-- No two pool entries share an identity. -/
def UniquePool (pool : List ProxyObj) : Prop :=
  pool.Pairwise (fun a b => ident a ≠ ident b)

/-! Helper lemmas. -/

theorem cacheGet_cacheSet_self (c : Cache) (k : String) (e : CacheEntry) :
    cacheGet (cacheSet c k e) k = some e := by
  induction c with
  | nil => simp [cacheSet, cacheGet_cons]
  | cons p rest ih =>
    obtain ⟨k0, e0⟩ := p
    by_cases h : k0 = k
    · simp [cacheSet, h, cacheGet_cons]
    · rw [cacheSet, if_neg h, cacheGet_cons, if_neg h]
      exact ih

theorem cacheGet_cacheSet_ne (c : Cache) (k k' : String) (e : CacheEntry)
    (hne : k' ≠ k) : cacheGet (cacheSet c k e) k' = cacheGet c k' := by
  induction c with
  | nil =>
    rw [cacheSet, cacheGet_cons, if_neg (fun h => hne h.symm)]
  | cons p rest ih =>
    obtain ⟨k0, e0⟩ := p
    by_cases h : k0 = k
    · subst h
      rw [cacheSet, if_pos rfl, cacheGet_cons, cacheGet_cons,
        if_neg (fun h => hne h.symm), if_neg (fun h => hne h.symm)]
    · rw [cacheSet, if_neg h, cacheGet_cons, cacheGet_cons]
      by_cases h' : k0 = k'
      · rw [if_pos h', if_pos h']
      · rw [if_neg h', if_neg h']
        exact ih

theorem insertState_cache_self (cfg : Cfg) (now : Int) (proxy : String) (s : PoolState)
    (huse : cfg.useCache = true) :
    cacheGet (insertState cfg now proxy s).proxyCache proxy = some ⟨true, now⟩ := by
  show cacheGet (if cfg.useCache then cacheSet s.proxyCache proxy ⟨true, now⟩
    else s.proxyCache) proxy = some ⟨true, now⟩
  rw [if_pos huse]
  exact cacheGet_cacheSet_self ..

theorem recordInvalid_cache_self (cfg : Cfg) (now : Int) (proxy : String) (s : PoolState)
    (huse : cfg.useCache = true) :
    cacheGet (recordInvalid cfg now proxy s).proxyCache proxy = some ⟨false, now⟩ := by
  show cacheGet (if cfg.useCache then cacheSet s.proxyCache proxy ⟨false, now⟩
    else s.proxyCache) proxy = some ⟨false, now⟩
  rw [if_pos huse]
  exact cacheGet_cacheSet_self ..

/-- The cache update done by either branch of the `addValidProxies` loop body
does not disturb lookups at a different key. -/
theorem cacheGet_branch_ne (cfg : Cfg) (c : Cache) (proxy k : String) (e : CacheEntry)
    (hne : proxy ≠ k) :
    cacheGet (if cfg.useCache then cacheSet c proxy e else c) k = cacheGet c k := by
  split
  · exact cacheGet_cacheSet_ne c proxy k e (fun h => hne h.symm)
  · rfl

theorem addValidProxies_cache_frame (cfg : Cfg) (now : Int) :
    ∀ (rs : List TestResult) (s : PoolState) (k : String),
      (∀ tr ∈ rs, tr.proxy ≠ k) →
      cacheGet (addValidProxies cfg now rs s).proxyCache k = cacheGet s.proxyCache k := by
  intro rs
  induction rs with
  | nil => intro s k _; rfl
  | cons tr rest ih =>
    intro s k hk
    have hkhd : tr.proxy ≠ k := hk tr (by simp)
    have hktl : ∀ tr' ∈ rest, tr'.proxy ≠ k := fun tr' h => hk tr' (by simp [h])
    rw [addValidProxies]
    by_cases hr : tr.result
    · rw [if_pos hr]
      by_cases he : existsInPool s.availableProxies tr.proxy
      · rw [if_pos he]
        exact ih s k hktl
      · rw [if_neg he]
        split
        · exact cacheGet_branch_ne cfg s.proxyCache tr.proxy k _ hkhd
        · rw [ih _ k hktl]
          exact cacheGet_branch_ne cfg s.proxyCache tr.proxy k _ hkhd
    · rw [if_neg hr, ih _ k hktl]
      exact cacheGet_branch_ne cfg s.proxyCache tr.proxy k _ hkhd

theorem addValidProxies_pool_prefix (cfg : Cfg) (now : Int) :
    ∀ (rs : List TestResult) (s : PoolState),
      List.IsPrefix s.availableProxies (addValidProxies cfg now rs s).availableProxies := by
  intro rs
  induction rs with
  | nil => intro s; exact List.prefix_refl _
  | cons tr rest ih =>
    intro s
    rw [addValidProxies]
    by_cases hr : tr.result
    · rw [if_pos hr]
      by_cases he : existsInPool s.availableProxies tr.proxy
      · rw [if_pos he]; exact ih s
      · rw [if_neg he]
        split
        · exact List.prefix_append ..
        · exact (List.prefix_append ..).trans
            (by simpa using ih (insertState cfg now tr.proxy s))
    · rw [if_neg hr]
      simpa using ih (recordInvalid cfg now tr.proxy s)

/-- C4: a refill triggered while one is active is a silent no-op (the state is
returned untouched and no attempt is made), and whenever a cycle does run —
including an arbitrary cycle body that faults internally — the single-flight
flag is false when it completes, by the `finally`. -/
theorem refill_single_flight_and_flag_release
    (body : PoolState → PoolState × Option String)
    (cfg : Cfg) (env : Env) (s : PoolState) :
    (s.isRefilling = true →
      refillProxiesGen body s = s ∧ refillProxies cfg env s = (s, 0)) ∧
    (s.isRefilling = false →
      (refillProxiesGen body s).isRefilling = false ∧
      (refillProxies cfg env s).fst.isRefilling = false) := by
  constructor
  · intro h; simp [refillProxiesGen, refillProxies, h]
  · intro h; simp [refillProxiesGen, refillProxies, h]

/-- Concrete instance of C4: a body that reaches some state and then faults
still leaves the flag cleared, and a call on a busy pool changes nothing. -/
theorem refill_single_flight_and_flag_release_witness :
    (refillProxiesGen (fun s1 => (s1, some "internal fault")) initialState).isRefilling = false ∧
    refillProxies { } ⟨0, fun _ => none, fun _ _ => none, fun _ => none⟩
        ⟨[], 3, true, []⟩ = (⟨[], 3, true, []⟩, 0) := by
  constructor
  · exact ((refill_single_flight_and_flag_release (fun s1 => (s1, some "internal fault"))
      { } ⟨0, fun _ => none, fun _ _ => none, fun _ => none⟩ initialState).2 rfl).1
  · exact ((refill_single_flight_and_flag_release (fun s1 => (s1, some "internal fault"))
      { } ⟨0, fun _ => none, fun _ _ => none, fun _ => none⟩ ⟨[], 3, true, []⟩).1 rfl).2

/-- C7: the validator classifies a candidate valid exactly when a response was
delivered with status exactly 200 and a string body containing the probe
marker; every network error, timeout or non-matching body yields `false`, and
the embedding is a total function — no exception escapes. -/
theorem testProxy_classification (probe : String → Option HttpResponse)
    (proxyUrl : String) :
    testProxy probe proxyUrl = true ↔
      ∃ r : HttpResponse, probe proxyUrl = some r ∧ r.status = 200 ∧
        ∃ body : String, r.data = JsData.str body ∧
          (strIncludes body "notion" = true ∨ strIncludes body "Notion" = true) := by
  cases h : probe proxyUrl with
  | none => simp [testProxy, h]
  | some r =>
    cases r with
    | mk st d =>
      cases d with
      | str s =>
        simp only [testProxy, h]
        constructor
        · intro hc
          rw [Bool.and_eq_true, beq_iff_eq, Bool.or_eq_true] at hc
          exact ⟨⟨st, JsData.str s⟩, rfl, hc.1, s, rfl, hc.2⟩
        · rintro ⟨r', hr', hst, body, hdata, hmark⟩
          obtain rfl : r' = ⟨st, JsData.str s⟩ := by
            injection hr' with h'
            exact h'.symm
          obtain rfl : body = s := by
            simp only at hdata
            injection hdata with h''
            exact h''.symm
          rw [Bool.and_eq_true, beq_iff_eq, Bool.or_eq_true]
          exact ⟨hst, hmark⟩
      | obj => simp [testProxy, h]
      | undef => simp [testProxy, h]

theorem refillLoop_attempts_le (cfg : Cfg) (env : Env) :
    ∀ (fuel attempts : Nat) (s : PoolState),
      (refillLoop cfg env fuel attempts s).snd ≤ attempts + fuel := by
  intro fuel
  induction fuel with
  | zero =>
    intro attempts s
    show attempts ≤ attempts + 0
    omega
  | succ fuel ih =>
    intro attempts s
    rw [refillLoop]
    split
    · split
      · exact le_trans (ih (attempts + 1) _) (by omega)
      · split
        · exact le_trans (ih (attempts + 1) _) (by omega)
        · split
          · show attempts + 1 ≤ attempts + (fuel + 1)
            omega
          · exact le_trans (ih (attempts + 1) _) (by omega)
    · show attempts ≤ attempts + (fuel + 1)
      omega

theorem refillLoop_zero_candidates (cfg : Cfg) (env : Env)
    (hp : ∀ a n, parseProviderResponse env.jsonParse (env.provider a n) = []) :
    ∀ (fuel attempts : Nat) (s : PoolState),
      s.availableProxies.length < cfg.targetCount →
      refillLoop cfg env fuel attempts s = (s, attempts + fuel) := by
  intro fuel
  induction fuel with
  | zero => intro attempts s _; rfl
  | succ fuel ih =>
    intro attempts s hlen
    have hfetch : attemptFetch cfg env (attempts + 1) s = [] := by
      rw [attemptFetch, getProxiesFromProvider, hp]
    have harith : attempts + 1 + fuel = attempts + (fuel + 1) := by omega
    rw [refillLoop, if_pos hlen, hfetch,
      if_pos (show ([] : List String).length = 0 from rfl),
      ih (attempts + 1) s hlen, harith]

/-- C9: a refill cycle performs at most `maxRefillAttempts` fetch-loop attempts;
and in the scenario with an attempt budget of 2 and a provider that always
delivers zero candidates, the cycle terminates after exactly 2 attempts with
the whole state unchanged (pool untouched) and the refilling flag false — a
normal exit, no exception. -/
theorem refill_attempt_budget :
    (∀ (cfg : Cfg) (env : Env) (s : PoolState),
      (refillProxies cfg env s).snd ≤ cfg.maxRefillAttempts) ∧
    (∀ (cfg : Cfg) (env : Env) (s : PoolState),
      cfg.maxRefillAttempts = 2 →
      s.isRefilling = false →
      s.availableProxies.length < cfg.targetCount →
      (cfg.useCache = false ∨ s.proxyCache = []) →
      (∀ a n, parseProviderResponse env.jsonParse (env.provider a n) = []) →
      refillProxies cfg env s = (s, 2)) := by
  constructor
  · intro cfg env s
    rw [refillProxies]
    split
    · simp
    · rw [refillCycleBody]
      split
      · simpa using refillLoop_attempts_le cfg env cfg.maxRefillAttempts 0 _
      · simpa using refillLoop_attempts_le cfg env cfg.maxRefillAttempts 0 _
  · intro cfg env s hmax hflag hlen hcache hp
    rw [refillProxies, if_neg (by simp [hflag])]
    rw [refillCycleBody, if_neg (by rcases hcache with h | h <;> simp [h])]
    rw [hmax, refillLoop_zero_candidates cfg env hp 2 0 _ (by simpa using hlen)]
    cases s with
    | mk a b c d => simp_all

/-- Concrete instance of C9's scenario: budget 2, provider always empty. -/
theorem refill_attempt_budget_witness :
    refillProxies { maxRefillAttempts := 2 }
      ⟨0, fun _ => none, fun _ _ => some ⟨200, JsData.str ""⟩, fun _ => none⟩
      initialState = (initialState, 2) := by
  exact refill_attempt_budget.2 { maxRefillAttempts := 2 }
    ⟨0, fun _ => none, fun _ _ => some ⟨200, JsData.str ""⟩, fun _ => none⟩
    initialState rfl rfl (by decide) (Or.inr rfl) (fun a n => rfl)

theorem acquireSeq_formula (l : List ProxyObj) (c : Bool) (cache : Cache) :
    ∀ (n i : Nat), i < l.length →
      acquireSeq n ⟨l, i, c, cache⟩ =
        (List.range n).map (fun j => l[(i + j) % l.length]?) := by
  intro n
  induction n with
  | zero => intro i _; rfl
  | succ n ih =>
    intro i hi
    have hlen0 : ¬ l.length = 0 := by omega
    have hstep : getProxy ⟨l, i, c, cache⟩ =
        (l[i]?, ⟨l, (i + 1) % l.length, c, cache⟩) := by
      simp [getProxy, hlen0]
    rw [acquireSeq, hstep]
    show l[i]? :: acquireSeq n ⟨l, (i + 1) % l.length, c, cache⟩ =
      (List.range (n + 1)).map (fun j => l[(i + j) % l.length]?)
    have hi1 : (i + 1) % l.length < l.length := Nat.mod_lt _ (by omega)
    rw [ih ((i + 1) % l.length) hi1, List.range_succ_eq_map n, List.map_cons, List.map_map]
    congr 1
    · rw [Nat.add_zero, Nat.mod_eq_of_lt hi]
    · have hfun : (fun j => l[((i + 1) % l.length + j) % l.length]?) =
          ((fun j => l[(i + j) % l.length]?) ∘ Nat.succ) := by
        funext j
        show l[((i + 1) % l.length + j) % l.length]? = l[(i + (j + 1)) % l.length]?
        have ha : i + 1 + j = i + (j + 1) := by omega
        rw [Nat.mod_add_mod, ha]
      rw [hfun]

theorem range_map_rotate (l : List ProxyObj) (i : Nat) (_hi : i < l.length) :
    (List.range l.length).map (fun j => l[(i + j) % l.length]?) =
      (l.rotate i).map some := by
  apply List.ext_get?
  intro n
  rcases Nat.lt_or_ge n l.length with hn | hn
  · rw [List.get?_eq_getElem?, List.get?_eq_getElem?, List.getElem?_map, List.getElem?_map,
      List.getElem?_range hn, List.getElem?_rotate hn]
    have hlt : (n + i) % l.length < l.length := Nat.mod_lt _ (by omega)
    rw [List.getElem?_eq_getElem hlt]
    simp only [Option.map_some']
    rw [Nat.add_comm i n, List.getElem?_eq_getElem hlt]
  · have h1 : ((List.range l.length).map (fun j => l[(i + j) % l.length]?)).length ≤ n := by
      simpa using hn
    have h2 : ((l.rotate i).map (some : ProxyObj → Option ProxyObj)).length ≤ n := by
      simpa using hn
    rw [List.get?_eq_getElem?, List.get?_eq_getElem?, List.getElem?_eq_none h1,
      List.getElem?_eq_none h2]

/-- C6: starting from any in-range cursor `i` on a pool `l`, the results of
`l.length` consecutive `getProxy()` calls are exactly the pool rotated at the
cursor — each entry once, in cyclic order — the `(l.length+1)`-th call repeats
the first result, and on an empty pool `getProxy()` returns none without
changing the state. -/
theorem getProxy_round_robin (l : List ProxyObj) (i : Nat) (c : Bool) (cache : Cache)
    (hi : i < l.length) :
    acquireSeq l.length ⟨l, i, c, cache⟩ = (l.rotate i).map some ∧
    acquireSeq (l.length + 1) ⟨l, i, c, cache⟩ = (l.rotate i).map some ++ [l[i]?] ∧
    (∀ s : PoolState, s.availableProxies = [] → getProxy s = (none, s)) := by
  refine ⟨?_, ?_, ?_⟩
  · rw [acquireSeq_formula l c cache l.length i hi, range_map_rotate l i hi]
  · rw [acquireSeq_formula l c cache (l.length + 1) i hi, List.range_succ,
      List.map_append, range_map_rotate l i hi]
    have hmod : (i + l.length) % l.length = i := by
      rw [Nat.add_mod_right]
      exact Nat.mod_eq_of_lt hi
    simp only [List.map_cons, List.map_nil, hmod]
  · intro s hs
    simp [getProxy, hs]

/-- Concrete instance of C6 on a pool of three entries with the cursor at 1. -/
theorem getProxy_round_robin_witness :
    acquireSeq 3 ⟨[⟨"1.1.1.1", some "80", "http", "http://1.1.1.1:80", 0, none, none⟩,
                   ⟨"2.2.2.2", some "81", "http", "http://2.2.2.2:81", 0, none, none⟩,
                   ⟨"3.3.3.3", some "82", "http", "http://3.3.3.3:82", 0, none, none⟩], 1, false, []⟩ =
      [some ⟨"2.2.2.2", some "81", "http", "http://2.2.2.2:81", 0, none, none⟩,
       some ⟨"3.3.3.3", some "82", "http", "http://3.3.3.3:82", 0, none, none⟩,
       some ⟨"1.1.1.1", some "80", "http", "http://1.1.1.1:80", 0, none, none⟩] ∧
    acquireSeq 4 ⟨[⟨"1.1.1.1", some "80", "http", "http://1.1.1.1:80", 0, none, none⟩,
                   ⟨"2.2.2.2", some "81", "http", "http://2.2.2.2:81", 0, none, none⟩,
                   ⟨"3.3.3.3", some "82", "http", "http://3.3.3.3:82", 0, none, none⟩], 1, false, []⟩ =
      [some ⟨"2.2.2.2", some "81", "http", "http://2.2.2.2:81", 0, none, none⟩,
       some ⟨"3.3.3.3", some "82", "http", "http://3.3.3.3:82", 0, none, none⟩,
       some ⟨"1.1.1.1", some "80", "http", "http://1.1.1.1:80", 0, none, none⟩,
       some ⟨"2.2.2.2", some "81", "http", "http://2.2.2.2:81", 0, none, none⟩] := by
  have h := getProxy_round_robin
    [⟨"1.1.1.1", some "80", "http", "http://1.1.1.1:80", 0, none, none⟩,
     ⟨"2.2.2.2", some "81", "http", "http://2.2.2.2:81", 0, none, none⟩,
     ⟨"3.3.3.3", some "82", "http", "http://3.3.3.3:82", 0, none, none⟩] 1 false []
    (by decide)
  exact ⟨h.1.trans (by decide), h.2.1.trans (by decide)⟩

/-! Uniqueness of pool identities (C5). -/

theorem existsInPool_false_ident (pool : List ProxyObj) (proxy : String)
    (cfg : Cfg) (now : Int) (h : existsInPool pool proxy = false) :
    ∀ p ∈ pool, ident p ≠ ident (mkProxyObj cfg now proxy) := by
  intro p hp heq
  rw [existsInPool] at h
  by_cases h4 : (splitParts proxy).length ≥ 4
  · rw [if_pos h4] at h
    have hp' := (List.any_eq_false.mp h) p hp
    apply hp'
    have hobj : ident (mkProxyObj cfg now proxy) =
        ((splitParts proxy).headD "", (splitParts proxy)[1]?,
         (splitParts proxy)[2]?, (splitParts proxy)[3]?) := by
      rw [ident, mkProxyObj, if_pos h4]
    rw [hobj, ident, Prod.mk.injEq, Prod.mk.injEq, Prod.mk.injEq] at heq
    simp only [decide_eq_true_eq]
    exact ⟨heq.1, heq.2.1, heq.2.2.1, heq.2.2.2⟩
  · rw [if_neg h4] at h
    have hp' := (List.any_eq_false.mp h) p hp
    apply hp'
    have hobj : ident (mkProxyObj cfg now proxy) =
        ((splitParts proxy).headD "", (splitParts proxy)[1]?, none, none) := by
      rw [ident, mkProxyObj, if_neg h4]
    rw [hobj, ident, Prod.mk.injEq, Prod.mk.injEq, Prod.mk.injEq] at heq
    simp only [decide_eq_true_eq]
    exact ⟨heq.1, heq.2.1⟩

theorem addValidProxies_unique (cfg : Cfg) (now : Int) :
    ∀ (rs : List TestResult) (s : PoolState),
      UniquePool s.availableProxies →
      UniquePool (addValidProxies cfg now rs s).availableProxies := by
  intro rs
  induction rs with
  | nil => intro s h; exact h
  | cons tr rest ih =>
    intro s h
    rw [addValidProxies]
    by_cases hr : tr.result
    · rw [if_pos hr]
      by_cases he : existsInPool s.availableProxies tr.proxy
      · rw [if_pos he]; exact ih s h
      · rw [if_neg he]
        have hnew : UniquePool (s.availableProxies ++ [mkProxyObj cfg now tr.proxy]) := by
          rw [UniquePool, List.pairwise_append]
          refine ⟨h, List.pairwise_singleton _ _, ?_⟩
          intro a ha b hb
          have hb' : b = mkProxyObj cfg now tr.proxy := by simpa using hb
          subst hb'
          exact existsInPool_false_ident s.availableProxies tr.proxy cfg now
            (by simpa using he) a ha
        split
        · simpa using hnew
        · exact ih _ (by simpa using hnew)
    · rw [if_neg hr]
      exact ih _ (by simpa using h)

theorem refillLoop_unique (cfg : Cfg) (env : Env) :
    ∀ (fuel attempts : Nat) (s : PoolState),
      UniquePool s.availableProxies →
      UniquePool (refillLoop cfg env fuel attempts s).fst.availableProxies := by
  intro fuel
  induction fuel with
  | zero => intro a s h; exact h
  | succ fuel ih =>
    intro a s h
    rw [refillLoop]
    split
    · split
      · exact ih _ _ h
      · split
        · exact ih _ _ h
        · split
          · exact addValidProxies_unique cfg env.now _ s h
          · exact ih _ _ (addValidProxies_unique cfg env.now _ s h)
    · exact h

theorem tryUsingCachedProxies_unique (cfg : Cfg) (env : Env) (needed : Int)
    (s : PoolState) (h : UniquePool s.availableProxies) :
    UniquePool (tryUsingCachedProxies cfg env needed s).fst.availableProxies := by
  rw [tryUsingCachedProxies]
  split
  · exact addValidProxies_unique cfg env.now _ s h
  · exact h

theorem refillProxies_unique (cfg : Cfg) (env : Env) (s : PoolState)
    (h : UniquePool s.availableProxies) :
    UniquePool (refillProxies cfg env s).fst.availableProxies := by
  rw [refillProxies]
  split
  · exact h
  · show UniquePool (refillCycleBody cfg env { s with isRefilling := true }).fst.availableProxies
    rw [refillCycleBody]
    split
    · exact refillLoop_unique cfg env _ _ _
        (tryUsingCachedProxies_unique cfg env _ _ (by simpa using h))
    · exact refillLoop_unique cfg env _ _ _ (by simpa using h)

theorem foldl_applyOp_unique (cfg : Cfg) :
    ∀ (ops : List Op) (s : PoolState),
      UniquePool s.availableProxies →
      UniquePool ((ops.foldl (applyOp cfg) s)).availableProxies := by
  intro ops
  induction ops with
  | nil => intro s h; exact h
  | cons op rest ih =>
    intro s h
    rw [List.foldl_cons]
    apply ih
    cases op with
    | refill env => exact refillProxies_unique cfg env s h
    | addValid now rs => exact addValidProxies_unique cfg now rs s h
    | acquire =>
      show UniquePool ((getProxy s).snd).availableProxies
      have hpool : ((getProxy s).snd).availableProxies = s.availableProxies := by
        rw [getProxy]
        split
        · rfl
        · rfl
      rw [hpool]
      exact h
    | remove now ip port =>
      show UniquePool (removeFilter ip port s.availableProxies)
      exact h.sublist (List.filter_sublist _)

/-- C5: along every sequence of pool operations — refill cycles with arbitrary
environments, `addValidProxies` on arbitrary test results, acquisitions and
removals, in any interleaving — the pool never holds two entries with the same
(host, port, username, password) identity. -/
theorem pool_uniqueness (cfg : Cfg) (ops : List Op) :
    UniquePool (runOps cfg ops).availableProxies :=
  foldl_applyOp_unique cfg ops initialState List.Pairwise.nil

/-! Sub-batch structure and cache recording (C3). -/

/-- The (ip, port) prefix of a candidate string, as the split extracts it. -/
def ipPortKey (proxy : String) : String × Option String :=
  ((splitParts proxy).headD "", (splitParts proxy)[1]?)

theorem mkProxyObj_ip (cfg : Cfg) (now : Int) (proxy : String) :
    (mkProxyObj cfg now proxy).ip = (splitParts proxy).headD "" := by
  rw [mkProxyObj]
  split
  · rfl
  · rfl

theorem mkProxyObj_port (cfg : Cfg) (now : Int) (proxy : String) :
    (mkProxyObj cfg now proxy).port = (splitParts proxy)[1]? := by
  rw [mkProxyObj]
  split
  · rfl
  · rfl

theorem existsInPool_append_obj (pool : List ProxyObj) (a b : String)
    (cfg : Cfg) (now : Int) (h : ipPortKey b ≠ ipPortKey a) :
    existsInPool (pool ++ [mkProxyObj cfg now b]) a = existsInPool pool a := by
  have hkey : ¬ ((mkProxyObj cfg now b).ip = (splitParts a).headD "" ∧
      (mkProxyObj cfg now b).port = (splitParts a)[1]?) := by
    intro hc
    apply h
    rw [ipPortKey, ipPortKey, Prod.mk.injEq]
    exact ⟨by rw [← mkProxyObj_ip cfg now b]; exact hc.1,
           by rw [← mkProxyObj_port cfg now b]; exact hc.2⟩
  rw [existsInPool, existsInPool]
  by_cases h4 : (splitParts a).length ≥ 4
  · rw [if_pos h4, if_pos h4, List.any_append]
    have hobj : (List.any [mkProxyObj cfg now b] fun p =>
        decide (p.ip = (splitParts a).headD "" ∧ p.port = (splitParts a)[1]? ∧
                p.username = (splitParts a)[2]? ∧ p.password = (splitParts a)[3]?)) = false := by
      simp only [List.any_cons, List.any_nil, Bool.or_false, decide_eq_false_iff_not]
      intro hc
      exact hkey ⟨hc.1, hc.2.1⟩
    rw [hobj, Bool.or_false]
  · rw [if_neg h4, if_neg h4, List.any_append]
    have hobj : (List.any [mkProxyObj cfg now b] fun p =>
        decide (p.ip = (splitParts a).headD "" ∧ p.port = (splitParts a)[1]?)) = false := by
      simp only [List.any_cons, List.any_nil, Bool.or_false, decide_eq_false_iff_not]
      intro hc
      exact hkey ⟨hc.1, hc.2⟩
    rw [hobj, Bool.or_false]

theorem addValidProxies_records (cfg : Cfg) (now : Int) :
    ∀ (rs : List TestResult) (s : PoolState),
      cfg.useCache = true →
      rs.Pairwise (fun a b => ipPortKey a.proxy ≠ ipPortKey b.proxy) →
      (addValidProxies cfg now rs s).availableProxies.length < cfg.targetCount →
      ∀ r ∈ rs,
        (r.result = false →
          cacheGet (addValidProxies cfg now rs s).proxyCache r.proxy =
            some ⟨false, now⟩) ∧
        (r.result = true → existsInPool s.availableProxies r.proxy = false →
          cacheGet (addValidProxies cfg now rs s).proxyCache r.proxy =
            some ⟨true, now⟩) := by
  intro rs
  induction rs with
  | nil => intro s _ _ _ r hr; exact absurd hr (List.not_mem_nil r)
  | cons tr rest ih =>
    intro s huse hpw hlen r hr
    have hpwhd : ∀ b ∈ rest, ipPortKey tr.proxy ≠ ipPortKey b.proxy :=
      (List.pairwise_cons.mp hpw).1
    have hpwtl := (List.pairwise_cons.mp hpw).2
    have hkeys : ∀ tr' ∈ rest, tr'.proxy ≠ tr.proxy := by
      intro tr' h' hcontra
      exact (hpwhd tr' h') (by rw [hcontra])
    by_cases hrres : tr.result
    · by_cases he : existsInPool s.availableProxies tr.proxy
      · have heq : addValidProxies cfg now (tr :: rest) s = addValidProxies cfg now rest s := by
          rw [addValidProxies, if_pos hrres, if_pos he]
        rw [heq] at hlen ⊢
        rcases List.mem_cons.mp hr with rfl | hr'
        · constructor
          · intro hf; simp [hf] at hrres
          · intro _ hex; simp [hex] at he
        · exact ih s huse hpwtl hlen r hr'
      · by_cases hb : (s.availableProxies ++ [mkProxyObj cfg now tr.proxy]).length ≥
            cfg.targetCount
        · exfalso
          have heq : addValidProxies cfg now (tr :: rest) s = insertState cfg now tr.proxy s := by
            rw [addValidProxies, if_pos hrres, if_neg he, if_pos hb]
          rw [heq] at hlen
          simp only [insertState_pool] at hlen
          omega
        · have heq : addValidProxies cfg now (tr :: rest) s =
              addValidProxies cfg now rest (insertState cfg now tr.proxy s) := by
            rw [addValidProxies, if_pos hrres, if_neg he, if_neg hb]
          rw [heq] at hlen ⊢
          rcases List.mem_cons.mp hr with rfl | hr'
          · constructor
            · intro hf; simp [hf] at hrres
            · intro _ _
              rw [addValidProxies_cache_frame cfg now rest _ _ hkeys]
              exact insertState_cache_self cfg now _ s huse
          · have hmain := ih (insertState cfg now tr.proxy s) huse hpwtl hlen r hr'
            refine ⟨hmain.1, fun ht hf => hmain.2 ht ?_⟩
            show existsInPool (insertState cfg now tr.proxy s).availableProxies r.proxy = false
            rw [insertState_pool, existsInPool_append_obj s.availableProxies r.proxy tr.proxy
                 cfg now (hpwhd r hr')]
            exact hf
    · have heq : addValidProxies cfg now (tr :: rest) s =
          addValidProxies cfg now rest (recordInvalid cfg now tr.proxy s) := by
        rw [addValidProxies, if_neg hrres]
      rw [heq] at hlen ⊢
      rcases List.mem_cons.mp hr with rfl | hr'
      · constructor
        · intro _
          rw [addValidProxies_cache_frame cfg now rest _ _ hkeys]
          exact recordInvalid_cache_self cfg now _ s huse
        · intro ht; exact absurd ht hrres
      · have hmain := ih (recordInvalid cfg now tr.proxy s) huse hpwtl hlen r hr'
        exact ⟨hmain.1, fun ht hf => hmain.2 ht (by simpa using hf)⟩

theorem chunksAux_mem_length (c : Nat) :
    ∀ (fuel : Nat) (l b : List String), b ∈ chunksAux c fuel l → b.length ≤ c := by
  intro fuel
  induction fuel with
  | zero =>
    intro l b hb
    simp [chunksAux] at hb
  | succ fuel ih =>
    intro l b hb
    cases l with
    | nil => simp [chunksAux] at hb
    | cons x xs =>
      simp only [chunksAux, List.mem_cons] at hb
      rcases hb with rfl | hb'
      · rw [List.length_take]
        exact Nat.min_le_left ..
      · exact ih (List.drop c (x :: xs)) b hb'

theorem chunksAux_flatten (c : Nat) (hc : 0 < c) :
    ∀ (fuel : Nat) (l : List String), l.length ≤ fuel →
      (chunksAux c fuel l).flatten = l := by
  intro fuel
  induction fuel with
  | zero =>
    intro l hl
    have hnil : l = [] := List.length_eq_zero.mp (by omega)
    subst hnil
    rfl
  | succ fuel ih =>
    intro l hl
    cases l with
    | nil => rfl
    | cons x xs =>
      simp only [chunksAux, List.flatten_cons]
      rw [ih (List.drop c (x :: xs)) (by rw [List.length_drop]; omega)]
      exact List.take_append_drop c (x :: xs)

/-- C3 counterexample: with `concurrentRequests = 1` and two candidates, the
single dispatched sub-batch holds both candidates — more than the configured
limit — and with `targetCount = 1`, the second candidate is probed live yet
its (passing) outcome is never recorded in the cache, because
`addValidProxies` breaks out once the pool reaches the target. -/
theorem validation_batching_counterexample :
    subBatches { targetCount := 1, concurrentRequests := 1 }
        ["1.1.1.1:81", "2.2.2.2:82"] = [["1.1.1.1:81", "2.2.2.2:82"]] ∧
    ¬ (∀ b ∈ subBatches { targetCount := 1, concurrentRequests := 1 }
          ["1.1.1.1:81", "2.2.2.2:82"],
        b.length ≤ ({ targetCount := 1, concurrentRequests := 1 } : Cfg).concurrentRequests) ∧
    "2.2.2.2:82" ∈ (testProxiesConcurrently { targetCount := 1, concurrentRequests := 1 }
        ⟨0, fun _ => none, fun _ _ => none, fun _ => some ⟨200, JsData.str "notion"⟩⟩
        initialState ["1.1.1.1:81", "2.2.2.2:82"]).snd ∧
    cacheGet (addValidProxies { targetCount := 1, concurrentRequests := 1 } 0
        (testProxiesConcurrently { targetCount := 1, concurrentRequests := 1 }
          ⟨0, fun _ => none, fun _ _ => none, fun _ => some ⟨200, JsData.str "notion"⟩⟩
          initialState ["1.1.1.1:81", "2.2.2.2:82"]).fst
        initialState).proxyCache "2.2.2.2:82" = none := by
  decide

/-- C3 (amended): sub-batches are bounded by `min(2·concurrentRequests, 20)` —
the code doubles the configured limit and caps it at 20, not by the configured
limit itself; the sub-batches partition the candidate list in dispatch order
(the next is awaited only after the previous resolved, modelled sequentially);
and with caching enabled, as long as the pool stays below target,
`addValidProxies` records every failed outcome as invalid and records a
passing outcome as valid when the candidate was not already pooled — outcomes
cut off by the early target break are not recorded. -/
theorem validation_batching_amended :
    (∀ (cfg : Cfg) (proxies b : List String),
        b ∈ subBatches cfg proxies →
        b.length ≤ min (cfg.concurrentRequests * 2) 20) ∧
    (∀ (cfg : Cfg) (proxies : List String), 0 < cfg.concurrentRequests →
        (subBatches cfg proxies).flatten = proxies) ∧
    (∀ (cfg : Cfg) (now : Int) (rs : List TestResult) (s : PoolState),
        cfg.useCache = true →
        rs.Pairwise (fun a b => ipPortKey a.proxy ≠ ipPortKey b.proxy) →
        (addValidProxies cfg now rs s).availableProxies.length < cfg.targetCount →
        ∀ r ∈ rs,
          (r.result = false →
            cacheGet (addValidProxies cfg now rs s).proxyCache r.proxy =
              some ⟨false, now⟩) ∧
          (r.result = true → existsInPool s.availableProxies r.proxy = false →
            cacheGet (addValidProxies cfg now rs s).proxyCache r.proxy =
              some ⟨true, now⟩)) := by
  refine ⟨?_, ?_, ?_⟩
  · intro cfg proxies b hb
    exact chunksAux_mem_length (batchLimit cfg) proxies.length proxies b hb
  · intro cfg proxies hc
    exact chunksAux_flatten (batchLimit cfg) (by rw [batchLimit]; omega) proxies.length
      proxies (le_refl _)
  · exact addValidProxies_records

/-- Concrete instance of C3 (amended): batch bound, partition, and recording of
a failed and a passing outcome. -/
theorem validation_batching_amended_witness :
    (["1.1.1.1:81", "2.2.2.2:82", "3.3.3.3:83"].length ≤
      min (({ } : Cfg).concurrentRequests * 2) 20) ∧
    (subBatches { } ["1.1.1.1:81", "2.2.2.2:82", "3.3.3.3:83"]).flatten =
      ["1.1.1.1:81", "2.2.2.2:82", "3.3.3.3:83"] ∧
    cacheGet (addValidProxies { } 7
        [⟨"4.4.4.4:84", false⟩, ⟨"5.5.5.5:85", true⟩] initialState).proxyCache "4.4.4.4:84" =
      some ⟨false, 7⟩ ∧
    cacheGet (addValidProxies { } 7
        [⟨"4.4.4.4:84", false⟩, ⟨"5.5.5.5:85", true⟩] initialState).proxyCache "5.5.5.5:85" =
      some ⟨true, 7⟩ := by
  refine ⟨?_, ?_, ?_, ?_⟩
  · exact validation_batching_amended.1 { } ["1.1.1.1:81", "2.2.2.2:82", "3.3.3.3:83"]
      ["1.1.1.1:81", "2.2.2.2:82", "3.3.3.3:83"] (by decide)
  · exact validation_batching_amended.2.1 { } ["1.1.1.1:81", "2.2.2.2:82", "3.3.3.3:83"]
      (by decide)
  · exact (validation_batching_amended.2.2 { } 7
      [⟨"4.4.4.4:84", false⟩, ⟨"5.5.5.5:85", true⟩] initialState rfl (by decide) (by decide)
      ⟨"4.4.4.4:84", false⟩ (by decide)).1 rfl
  · exact (validation_batching_amended.2.2 { } 7
      [⟨"4.4.4.4:84", false⟩, ⟨"5.5.5.5:85", true⟩] initialState rfl (by decide) (by decide)
      ⟨"5.5.5.5:85", true⟩ (by decide)).2 rfl (by decide)

/-! Remaining claims: cursor safety (C1), cache-first re-validation (C2),
provider contract (C8), removal cache frame (C10). -/

/-- Configuration for the cursor trace: target 2, one attempt per cycle. -/
def cfgA : Cfg := { targetCount := 2, batchSize := 1, maxRefillAttempts := 1, useCache := false }

def lineA1 : String := "\x7b\"ip\":\"1.1.1.1\",\"port\":\"80\"\x7d"

def lineA2 : String :=
  "\x7b\"ip\":\"1.1.1.1\",\"port\":\"80\",\"username\":\"u\",\"password\":\"p\"\x7d"

def lineA3 : String := "\x7b\"ip\":\"2.2.2.2\",\"port\":\"81\"\x7d"

/-- The platform JSON parser restricted to the three provider lines of the
trace (any other line fails to parse). -/
def jpA : String → Option ProviderRecord := fun line =>
  if line = lineA1 then some ⟨some "1.1.1.1", some "80", none, none⟩
  else if line = lineA2 then some ⟨some "1.1.1.1", some "80", some "u", some "p"⟩
  else if line = lineA3 then some ⟨some "2.2.2.2", some "81", none, none⟩
  else none

/-- First refill environment: the provider returns a credential-less and a
credentialed record for the same ip:port; every probe succeeds. -/
def envA1 : Env :=
  ⟨0, jpA, fun _ _ => some ⟨200, JsData.str (lineA1 ++ "\n" ++ lineA2)⟩,
   fun _ => some ⟨200, JsData.str "a notion page"⟩⟩

/-- Second refill environment: the provider returns one fresh proxy. -/
def envA2 : Env :=
  ⟨3, jpA, fun _ _ => some ⟨200, JsData.str lineA3⟩,
   fun _ => some ⟨200, JsData.str "a notion page"⟩⟩

/-- C1 (code bug): a reachable trace — refill inserts `1.1.1.1:80` and
`1.1.1.1:80:u:p` (distinct identities, same ip:port), one acquisition moves
the cursor to 1, `removeProxy("1.1.1.1", "80")` deletes both entries but
leaves the cursor at 1 because the re-clamp is skipped when the pool becomes
empty, and a further refill inserts a single entry — after which the pool is
non-empty yet `getProxy()` reads index 1 out of range and hands out
`undefined` (`none`) instead of a pool entry. -/
theorem cursor_out_of_range :
    (runOps cfgA [Op.refill envA1, Op.acquire, Op.remove 1 "1.1.1.1" "80",
        Op.refill envA2]).availableProxies.length = 1 ∧
    (runOps cfgA [Op.refill envA1, Op.acquire, Op.remove 1 "1.1.1.1" "80",
        Op.refill envA2]).currentIndex = 1 ∧
    (getProxy (runOps cfgA [Op.refill envA1, Op.acquire, Op.remove 1 "1.1.1.1" "80",
        Op.refill envA2])).fst = none := by
  decide

/-- C2 (code bug): with caching on, a fresh valid cache entry for a dead proxy
(every live probe of the environment fails), the cache-first pass inserts the
proxy into the pool while issuing zero live probes — the fresh cache entry
alone was sufficient for insertion, with no re-validation, because
`testProxiesConcurrently` short-circuits on the very cache entries
`tryUsingCachedProxies` selected. -/
theorem cache_pass_no_revalidation :
    (tryUsingCachedProxies { } ⟨1, fun _ => none, fun _ _ => none, fun _ => none⟩ 20
        ⟨[], 0, false, [("9.9.9.9:99", ⟨true, 0⟩)]⟩).snd = [] ∧
    (tryUsingCachedProxies { } ⟨1, fun _ => none, fun _ _ => none, fun _ => none⟩ 20
        ⟨[], 0, false, [("9.9.9.9:99", ⟨true, 0⟩)]⟩).fst.availableProxies.map ProxyObj.full =
      ["http://9.9.9.9:99"] ∧
    testProxy (fun _ => none) "9.9.9.9:99" = false := by
  decide

/-- C8 counterexample: a response with status 500 (non-2xx) whose body is a
well-formed provider line yields that candidate, not an empty list — the
status is never inspected. -/
theorem provider_fetch_counterexample :
    parseProviderResponse
        (fun line => if line = "\x7b\"ip\":\"1.1.1.1\",\"port\":\"8080\"\x7d"
          then some ⟨some "1.1.1.1", some "8080", none, none⟩ else none)
        (some ⟨500, JsData.str "\x7b\"ip\":\"1.1.1.1\",\"port\":\"8080\"\x7d"⟩) =
      ["1.1.1.1:8080"] := by
  decide

/-- C8 (amended): the count put in the provider URL is capped at 10 whatever
was requested; lines that fail to parse or lack truthy ip/port are skipped
without aborting the batch; a network error, an absent / non-string / empty
body each yield an empty candidate list (never an exception, since the
embedding is total); and the response status has no influence on the result —
in particular a non-2xx response with a parseable body still yields its
candidates. -/
theorem provider_fetch_amended :
    (∀ (batchSize : Nat) (count : Option Nat),
        effectiveRequestCount batchSize count ≤ 10) ∧
    (∀ (jp : String → Option ProviderRecord) (lines : List String),
        parseLines jp lines =
          lines.filterMap (fun line => (jp line).bind candidateOfRecord)) ∧
    (∀ (jp : String → Option ProviderRecord) (st : Nat),
        parseProviderResponse jp none = [] ∧
        parseProviderResponse jp (some ⟨st, JsData.obj⟩) = [] ∧
        parseProviderResponse jp (some ⟨st, JsData.undef⟩) = [] ∧
        parseProviderResponse jp (some ⟨st, JsData.str ""⟩) = []) ∧
    (∀ (jp : String → Option ProviderRecord) (st st' : Nat) (d : JsData),
        parseProviderResponse jp (some ⟨st, d⟩) = parseProviderResponse jp (some ⟨st', d⟩)) := by
  refine ⟨?_, ?_, ?_, ?_⟩
  · intro batchSize count
    simp only [effectiveRequestCount]
    exact Nat.min_le_right _ 10
  · intro jp lines
    induction lines with
    | nil => rfl
    | cons line rest ih =>
      cases hjp : jp line with
      | none => simp only [parseLines, hjp, List.filterMap_cons, Option.none_bind]; exact ih
      | some r =>
        cases hc : candidateOfRecord r with
        | none =>
          simp only [parseLines, hjp, hc, List.filterMap_cons, Option.some_bind]
          exact ih
        | some cand =>
          simp only [parseLines, hjp, hc, List.filterMap_cons, Option.some_bind]
          rw [ih]
  · intro jp st
    exact ⟨rfl, rfl, rfl, by simp [parseProviderResponse]⟩
  · intro jp st st' d
    cases d with
    | str s => rfl
    | obj => rfl
    | undef => rfl

/-- C10: the synchronous effect of `removeProxy(ip, port)` on the cache is a
single write of an invalid entry under the credential-less key `ip:port`;
every other key — in particular the credentialed key `ip:port:user:pass` a
credentialed proxy was cached under — is untouched, so with that entry still
fresh and valid, the next cache-first scan selects the just-removed
credentialed proxy again. -/
theorem remove_invalidates_credless_key_only (cfg : Cfg) (s : PoolState)
    (ip port key : String) (ts now now2 : Int)
    (huse : cfg.useCache = true)
    (hkey : key ≠ ip ++ ":" ++ port)
    (hcache : s.proxyCache = [(key, ⟨true, ts⟩)])
    (hpool : removeFound ip port s.availableProxies = true)
    (hfresh : now2 - ts < cfg.cacheExpiry) :
    (∀ k, k ≠ ip ++ ":" ++ port →
      cacheGet (removeProxy cfg now ip port s).snd.proxyCache k = cacheGet s.proxyCache k) ∧
    cacheGet (removeProxy cfg now ip port s).snd.proxyCache key = some ⟨true, ts⟩ ∧
    cacheGet (removeProxy cfg now ip port s).snd.proxyCache (ip ++ ":" ++ port) =
      some ⟨false, now⟩ ∧
    (∀ needed : Int,
      collectCached cfg now2 needed (removeProxy cfg now ip port s).snd.proxyCache [] = [key]) := by
  have hc : (removeProxy cfg now ip port s).snd.proxyCache =
      cacheSet s.proxyCache (ip ++ ":" ++ port) ⟨false, now⟩ := by
    show (if removeFound ip port s.availableProxies ∧ cfg.useCache then
        cacheSet s.proxyCache (ip ++ ":" ++ port) ⟨false, now⟩ else s.proxyCache) = _
    rw [if_pos ⟨hpool, huse⟩]
  refine ⟨?_, ?_, ?_, ?_⟩
  · intro k hk
    rw [hc]
    exact cacheGet_cacheSet_ne s.proxyCache (ip ++ ":" ++ port) k _ hk
  · rw [hc, cacheGet_cacheSet_ne s.proxyCache (ip ++ ":" ++ port) key _ hkey, hcache,
      cacheGet_cons, if_pos rfl]
  · rw [hc]
    exact cacheGet_cacheSet_self ..
  · intro needed
    have hcs : cacheSet s.proxyCache (ip ++ ":" ++ port) ⟨false, now⟩ =
        [(key, ⟨true, ts⟩), (ip ++ ":" ++ port, ⟨false, now⟩)] := by
      rw [hcache, cacheSet, if_neg (fun h => hkey h), cacheSet]
    rw [hc, hcs, collectCached, if_pos ⟨hfresh, rfl⟩]
    split
    · rfl
    · rw [collectCached, if_neg (by simp), collectCached]
      rfl

/-- Concrete instance of C10: a credentialed proxy pooled and cached under
`1.2.3.4:80:u:p` survives `removeProxy("1.2.3.4", "80")` in the cache and is
selected again by the next cache scan, while `1.2.3.4:80` is marked invalid. -/
theorem remove_invalidates_credless_key_only_witness :
    cacheGet (removeProxy { } 5 "1.2.3.4" "80"
        ⟨[⟨"1.2.3.4", some "80", "http", "http://u:p@1.2.3.4:80", 0, some "u", some "p"⟩],
         0, false, [("1.2.3.4:80:u:p", ⟨true, 0⟩)]⟩).snd.proxyCache "1.2.3.4:80:u:p" =
      some ⟨true, 0⟩ ∧
    cacheGet (removeProxy { } 5 "1.2.3.4" "80"
        ⟨[⟨"1.2.3.4", some "80", "http", "http://u:p@1.2.3.4:80", 0, some "u", some "p"⟩],
         0, false, [("1.2.3.4:80:u:p", ⟨true, 0⟩)]⟩).snd.proxyCache "1.2.3.4:80" =
      some ⟨false, 5⟩ ∧
    collectCached { } 10 1 (removeProxy { } 5 "1.2.3.4" "80"
        ⟨[⟨"1.2.3.4", some "80", "http", "http://u:p@1.2.3.4:80", 0, some "u", some "p"⟩],
         0, false, [("1.2.3.4:80:u:p", ⟨true, 0⟩)]⟩).snd.proxyCache [] =
      ["1.2.3.4:80:u:p"] := by
  have h := remove_invalidates_credless_key_only { }
    ⟨[⟨"1.2.3.4", some "80", "http", "http://u:p@1.2.3.4:80", 0, some "u", some "p"⟩],
     0, false, [("1.2.3.4:80:u:p", ⟨true, 0⟩)]⟩
    "1.2.3.4" "80" "1.2.3.4:80:u:p" 0 5 10 rfl (by decide) rfl (by decide) (by decide)
  exact ⟨h.2.1, h.2.2.1, h.2.2.2 1⟩

end ProxyPoolModel
